import Mathlib

/-!
Verification development for the Bitcoin HTLC swap engine (`BtcSwap`).

The engine's pure logic is embedded shallowly:
* amounts are `ℚ` (BigNumber decimals) and `ℤ` (satoshi integers),
* the bitcoin script is a list of opcode / push elements,
* the chain gateway collaborators (`fetchUnspents`, `fetchTxInfo`,
  `broadcastTx`, `checkWithdraw`, `estimateFeeValue`) are fields of an
  environment record, and each engine method is a pure function of that
  environment.
-/

/-- JS `toUpperCase` restricted to ASCII, as used on hash-algorithm names. -/
def charUpper (c : Char) : Char :=
  if 'a' ≤ c ∧ c ≤ 'z' then Char.ofNat (c.toNat - 32) else c

/-- JS `toLowerCase` restricted to ASCII, as used on addresses and txids. -/
def charLower (c : Char) : Char :=
  if 'A' ≤ c ∧ c ≤ 'Z' then Char.ofNat (c.toNat + 32) else c

def jsToUpper (s : String) : String := String.mk (s.data.map charUpper)

def jsToLower (s : String) : String := String.mk (s.data.map charLower)

/-- Substring test on lists (used to model JS `RegExp.test` with a literal
pattern). -/
def hasSub [DecidableEq α] : List α → List α → Bool
  | [], pat => pat.isEmpty
  | a :: rest, pat => pat.isPrefixOf (a :: rest) || hasSub rest pat

/-- `/pat/.test(s)` for a regex that is a plain literal string. -/
def strContains (s pat : String) : Bool := hasSub s.data pat.data

example : jsToUpper "ripemd160" = "RIPEMD160" := by decide
example : jsToLower "2NAbc" = "2nabc" := by decide
example : strContains "Total less than fee: 0 < 546" "Total less than fee: 0" = true := by decide
example : strContains "Total less than fee: 5 < 0" "Total less than fee: 0" = false := by decide

/-- `BigNumber.integerValue()` with the default `ROUND_HALF_UP` mode:
round to the nearest integer, ties away from zero. -/
def bnIntegerValue (x : ℚ) : ℤ :=
  if 0 ≤ x then Rat.floor (x + 1/2) else -Rat.floor (-x + 1/2)

theorem ratFloor_eq_floor (q : ℚ) : Rat.floor q = ⌊q⌋ := by
  rw [Rat.floor_def', Rat.floor_def]

theorem bnIntegerValue_eq (x : ℚ) :
    bnIntegerValue x = if 0 ≤ x then ⌊x + 1/2⌋ else -⌊-x + 1/2⌋ := by
  simp [bnIntegerValue, ratFloor_eq_floor]

theorem floor_intCast_add_half (n : ℤ) : ⌊(n : ℚ) + 1/2⌋ = n := by
  refine Int.floor_eq_iff.mpr ⟨by linarith, by linarith⟩

theorem bnIntegerValue_intCast (n : ℤ) : bnIntegerValue ((n : ℚ)) = n := by
  rw [bnIntegerValue_eq]
  rcases le_or_lt 0 n with h | h
  · rw [if_pos (by exact_mod_cast h), floor_intCast_add_half]
  · rw [if_neg (by exact_mod_cast not_le.mpr h)]
    have h2 : ⌊-(n : ℚ) + 1/2⌋ = -n := by
      rw [show -(n : ℚ) = ((-n : ℤ) : ℚ) by push_cast; ring, floor_intCast_add_half]
    rw [h2, neg_neg]

/-! ## Bitcoin script model (`createScript`, BtcSwap.js lines 181–218)

The engine pushes hex-decoded buffers for the keys and hash, and the
BIP-62 minimal script-number encoding for the locktime.  A compiled
script is modelled as the list of its elements. -/

/-- One element of a compiled bitcoin script: an opcode, a push of a
hex-decoded buffer (`Buffer.from(s, 'hex')` is injective on even-length
hex strings, so the hex string itself represents the pushed bytes), or a
push of raw bytes (the script-number encoding of the locktime). -/
inductive ScriptElem where
  | op (code : Nat)
  | pushHex (hex : String)
  | pushBytes (bytes : List Nat)
deriving DecidableEq

/-- The opcode constants of `bitcoin.opcodes` used by the engine. -/
def OP_RIPEMD160 : Nat := 166
def OP_SHA256 : Nat := 168
def OP_EQUAL : Nat := 135
def OP_EQUALVERIFY : Nat := 136
def OP_IF : Nat := 99
def OP_ELSE : Nat := 103
def OP_ENDIF : Nat := 104
def OP_DROP : Nat := 117
def OP_CHECKSIG : Nat := 172
def OP_CHECKLOCKTIMEVERIFY : Nat := 177

/-- The `bitcoin.opcodes` name table, restricted to the hash opcodes the
engine can look up via `'OP_' + hashName.toUpperCase()`. -/
def opcodeByName (s : String) : Option Nat :=
  if s = "OP_RIPEMD160" then some OP_RIPEMD160
  else if s = "OP_SHA256" then some OP_SHA256
  else none

/-- `bitcoin.script.number.encode` for a nonnegative integer: minimal
little-endian bytes, with a `0x00` appended when the top byte has the
sign bit set; `0` encodes to the empty buffer. -/
def scriptNumEncode (n : Nat) : List Nat :=
  let b := Nat.digits 256 n
  if b = [] then [] else if 128 ≤ b.getLast! then b ++ [0] else b

/-- `ScriptValues`: the parameters identifying one HTLC instance.  The
keys and the secret hash are hex strings, as handed to the engine. -/
structure ScriptValues where
  secretHash : String
  ownerPublicKey : String
  recipientPublicKey : String
  lockTime : Nat
deriving DecidableEq

/-- The HTLC redeem script body with a given hash opcode, exactly the
element sequence compiled at BtcSwap.js lines 187–209. -/
def htlcScript (data : ScriptValues) (hashOpcode : Nat) : List ScriptElem :=
  [ .op hashOpcode,
    .pushHex data.secretHash,
    .op OP_EQUALVERIFY,
    .pushHex data.recipientPublicKey,
    .op OP_EQUAL,
    .op OP_IF,
    .pushHex data.recipientPublicKey,
    .op OP_CHECKSIG,
    .op OP_ELSE,
    .pushBytes (scriptNumEncode data.lockTime),
    .op OP_CHECKLOCKTIMEVERIFY,
    .op OP_DROP,
    .pushHex data.ownerPublicKey,
    .op OP_CHECKSIG,
    .op OP_ENDIF ]

/-- `createScript(data, hashName)`: resolves the hash opcode from
`'OP_' + hashName.toUpperCase()` in the opcode table and compiles the
redeem script.  `none` when the opcode name is unknown (the JS code
would compile a broken script with an `undefined` chunk). -/
def createScript (data : ScriptValues) (hashName : String) : Option (List ScriptElem) :=
  match opcodeByName ("OP_" ++ jsToUpper hashName) with
  | some hashOpcode => some (htlcScript data hashOpcode)
  | none => none

example : ∀ data, createScript data "ripemd160" = some (htlcScript data OP_RIPEMD160) :=
  fun _ => rfl
example : ∀ data, createScript data "sha256" = some (htlcScript data OP_SHA256) :=
  fun _ => rfl
example : ∀ data, createScript data "sha1" = none := fun _ => rfl

/-! ## Chain data and the engine environment

Every asynchronous collaborator of `BtcSwap` (`fetchUnspents`,
`fetchTxInfo`, `broadcastTx`, `checkWithdraw`, `estimateFeeValue`, the
keyring address, and the bitcoinjs p2sh address derivation and
transaction serialisation, which are opaque hashing) is a field of an
environment record, so each engine method becomes a pure function of
the environment. -/

/-- An unspent output as returned by `fetchUnspents`.  A UTXO with no
`confirmations` field behaves as `confirmations = 0` in the only use
`confs > 0`. -/
structure Unspent where
  txid : String
  vout : Nat
  satoshis : ℤ
  confirmations : Nat
deriving DecidableEq

/-- `unspents.reduce((summ, { satoshis }) => summ + satoshis, 0)`. -/
def sumSatoshis (unspents : List Unspent) : ℤ :=
  unspents.foldl (fun summ u => summ + u.satoshis) 0

/-- The result of `fetchTxInfo`: `fees` is absent or carried (a `fees`
of `0` is falsy in the JS `if (fees)` test). -/
structure TxInfoRec where
  txid : String
  senderAddress : String
  fees : Option ℚ
deriving DecidableEq

/-- The report of the optional `checkWithdraw` probe. -/
structure WithdrawInfo where
  address : String
  txid : String
deriving DecidableEq

/-- A JS error as observed by `withdraw`'s catch block: its `message`,
and `res.text` when the error carries a gateway response. -/
structure JsError where
  message : String
  resText : Option String
deriving DecidableEq

/-- A built redeem/refund transaction: its `nLockTime`, its inputs as
`(txid, vout, sequence)` triples, and its outputs as
`(address, satoshis)` pairs. -/
structure RedeemTx where
  nLockTime : Nat
  inputs : List (String × Nat × Nat)
  outputs : List (String × ℤ)
deriving DecidableEq

/-- A built funding transaction: inputs as `(txid, vout)` pairs and
outputs as `(address, satoshis)` pairs. -/
structure FundTx where
  inputs : List (String × Nat)
  outputs : List (String × ℤ)
deriving DecidableEq

/-- The request object `getTxFee` sends to `estimateFeeValue`. -/
structure FeeRequest where
  inSatoshis : Bool
  address : String
  speed : String
  method : String
deriving DecidableEq

/-- The dependency-injected environment of a `BtcSwap` instance.
`deriveAddress` abstracts the p2sh address derivation
(`bitcoin.payments.p2sh` over `createScript`'s output, a hash) and
`serializeTx` abstracts signing plus serialisation
(`buildIncomplete`/`toHex`/`getId`), returning `(txHex, txId)`. -/
structure Env where
  fetchUnspents : String → List Unspent
  fetchTxInfo : String → Option TxInfoRec
  broadcastTx : String → Except JsError Unit
  checkWithdraw : Option (String → Option WithdrawInfo)
  estimateFeeValue : FeeRequest → ℚ
  ownerAddress : String
  deriveAddress : ScriptValues → String → String
  serializeTx : RedeemTx → String × String

/-! ## FeeOracle (`getTxFee`, BtcSwap.js lines 70–85) -/

/-- `BigNumber.dp(0, ROUND_UP)`: round away from zero to an integer. -/
def bnDp0RoundUp (x : ℚ) : ℤ :=
  if 0 ≤ x then Rat.ceil x else -Rat.ceil (-x)

/-- Constructor defaults (BtcSwap.js lines 43–45): absent options.  The
`options.feeValue || 546` fallback also replaces a configured `0` (JS
falsiness), and the absent fee estimator defaults to `() => 0`. -/
structure BtcSwapOptions where
  feeValue : Option ℚ
  estimateFeeValue : Option (FeeRequest → ℚ)

/-- `this.feeValue = options.feeValue || 546`. -/
def initFeeValue (o : BtcSwapOptions) : ℚ :=
  match o.feeValue with
  | some v => if v = 0 then 546 else v
  | none => 546

/-- `this.estimateFeeValue = options.estimateFeeValue || (() => 0)`. -/
def initEstimateFeeValue (o : BtcSwapOptions) : FeeRequest → ℚ :=
  o.estimateFeeValue.getD (fun _ => 0)

/-- `getTxFee({inSatoshis, size, speed, address})`: queries the
estimator with `{inSatoshis: true, address, speed, method: 'swap'}` and
returns the estimate in satoshis, or divided by `1e8` and rounded up
when `inSatoshis` is false. -/
def getTxFee (estimateFeeValue : FeeRequest → ℚ) (inSatoshis : Bool)
    (address : String) (speed : String) : ℚ :=
  let estimatedFee := estimateFeeValue ⟨true, address, speed, "swap"⟩
  if inSatoshis then estimatedFee else (bnDp0RoundUp (estimatedFee / 100000000) : ℚ)

/-- The satoshi fee an engine method obtains for an address:
`(await this.getTxFee({inSatoshis: true, address})).integerValue().toNumber()`,
with the default speed `'fast'`. -/
def envTxFee (env : Env) (address : String) : ℚ :=
  getTxFee env.estimateFeeValue true address "fast"

/-! ## ConfidenceFilter (`filterConfidentUnspents`, BtcSwap.js lines 94–135) -/

/-- `feesToConfidence(fees, size, address)`: `fees / f*` when the fees
paid fall short of the current fastest fee `f*`, else `1`. -/
def feesToConfidence (env : Env) (fees : ℚ) (address : String) : ℚ :=
  let currentFastestFee := envTxFee env address
  if fees < currentFastestFee then fees / currentFastestFee else 1

/-- `confirmationsToConfidence`: `confs > 0 ? 1 : 0`. -/
def confirmationsToConfidence (confs : Nat) : ℚ :=
  if confs > 0 then 1 else 0

/-- `fetchConfidence({txid, confirmations})`: the confirmations-based
confidence when it already reaches the expected level; otherwise the
fee-based confidence from `fetchTxInfo`, falling back to the
confirmations-based value when the lookup fails or yields no (truthy)
`fees` field. -/
def fetchConfidence (env : Env) (expectedConfidenceLevel : ℚ) (u : Unspent) : ℚ :=
  let confidenceFromConfirmations := confirmationsToConfidence u.confirmations
  if expectedConfidenceLevel ≤ confidenceFromConfirmations then
    confidenceFromConfirmations
  else
    match env.fetchTxInfo u.txid with
    | none => confidenceFromConfirmations
    | some info =>
      match info.fees with
      | some fees =>
        if fees = 0 then confidenceFromConfirmations
        else feesToConfidence env fees info.senderAddress
      | none => confidenceFromConfirmations

/-- `filterConfidentUnspents(unspents, expectedConfidenceLevel)`: keeps
the unspents whose confidence reaches the expected level (0.95 at the
default call sites). -/
def filterConfidentUnspents (env : Env) (expectedConfidenceLevel : ℚ)
    (unspents : List Unspent) : List Unspent :=
  unspents.filter (fun u =>
    decide (expectedConfidenceLevel ≤ fetchConfidence env expectedConfidenceLevel u))

/-! ## ScriptChecker (`checkScript`, BtcSwap.js lines 231–255) -/

/-- The `expected` argument of `checkScript`: the expected BTC value (a
BigNumber decimal), locktime, recipient key, and optional confidence
level. -/
structure Expected where
  value : ℚ
  lockTime : Nat
  recipientPublicKey : String
  confidence : Option ℚ
deriving DecidableEq

/-- `checkScript(data, expected, hashName)`: derives the p2sh address,
fetches its unspents, and returns the first diagnostic string among the
four failure checks, or `none` (the falsy `undefined`) when all pass. -/
def checkScript (env : Env) (data : ScriptValues) (expected : Expected)
    (hashName : String) : Option String :=
  let scriptAddress := env.deriveAddress data hashName
  let expectedConfidence := expected.confidence.getD (19/20)
  let unspents := env.fetchUnspents scriptAddress
  let expectedValue := bnIntegerValue (expected.value * 100000000)
  let totalUnspent := sumSatoshis unspents
  let confidentUnspents := filterConfidentUnspents env expectedConfidence unspents
  let totalConfidentUnspent := sumSatoshis confidentUnspents
  if totalUnspent < expectedValue then
    some s!"Expected script value: {expectedValue}, got: {totalUnspent}, address: {scriptAddress}"
  else if data.lockTime < expected.lockTime then
    some s!"Expected script lockTime: {expected.lockTime}, got: {data.lockTime}, address: {scriptAddress}"
  else if expected.recipientPublicKey ≠ data.recipientPublicKey then
    some s!"Expected script recipient publicKey: {expected.recipientPublicKey}, got: {data.recipientPublicKey}"
  else if totalConfidentUnspent < expectedValue then
    some s!"Expected script value: {expectedValue} with confidence above {expectedConfidence}, got: {totalConfidentUnspent}, address: {scriptAddress}"
  else
    none

/-! ## Funder (`fundScript`, BtcSwap.js lines 266–313) -/

/-- The `data` argument of `fundScript`. -/
structure FundData where
  scriptValues : ScriptValues
  amount : ℚ
deriving DecidableEq

/-- The insufficient-funds message thrown by `fundScript`:
`` `Total less than fee: ${totalUnspent} < ${feeValue} + ${fundValue}` ``. -/
def fundInsufficientMsg (totalUnspent feeValue fundValue : ℤ) : String :=
  "Total less than fee: " ++ toString totalUnspent ++ " < " ++ toString feeValue
    ++ " + " ++ toString fundValue

/-- `fundScript({scriptValues, amount}, _, hashName)` up to the built
transaction: fails when the owner's unspent total cannot cover fee plus
funding value; otherwise spends every fetched unspent and emits the
HTLC output followed by the change output. -/
def fundScript (env : Env) (data : FundData) (hashName : String) :
    Except String FundTx :=
  let scriptAddress := env.deriveAddress data.scriptValues hashName
  let unspents := env.fetchUnspents env.ownerAddress
  let fundValue := bnIntegerValue (data.amount * 100000000)
  let feeValue := bnIntegerValue (envTxFee env env.ownerAddress)
  let totalUnspent := sumSatoshis unspents
  let skipValue := totalUnspent - fundValue - feeValue
  if totalUnspent < feeValue + fundValue then
    .error (fundInsufficientMsg totalUnspent feeValue fundValue)
  else
    .ok { inputs := unspents.map (fun u => (u.txid, u.vout)),
          outputs := [(scriptAddress, fundValue), (env.ownerAddress, skipValue)] }

/-! ## Redeemer (`getWithdrawRawTransaction`/`withdraw`/`refund`,
BtcSwap.js lines 349–533) -/

/-- The `data` argument of the redeem path. -/
structure WithdrawData where
  scriptValues : ScriptValues
  secret : String
  destinationAddress : Option String
deriving DecidableEq

/-- `(destinationAddress) ? destinationAddress : getAddress()`: the JS
truthiness test also rejects an empty-string destination. -/
def withdrawDest (env : Env) (data : WithdrawData) : String :=
  match data.destinationAddress with
  | some d => if d = "" then env.ownerAddress else d
  | none => env.ownerAddress

/-- The insufficient-funds message thrown by the redeem path:
`` `Total less than fee: ${totalUnspent} < ${feeValue}` ``. -/
def redeemInsufficientMsg (totalUnspent feeValue : ℤ) : String :=
  "Total less than fee: " ++ toString totalUnspent ++ " < " ++ toString feeValue

/-- The result of `getWithdrawRawTransaction`: either the
already-withdrawn report, or the built transaction with its hex and id
(from signing and serialisation). -/
inductive WithdrawRaw where
  | already (txId : String)
  | built (txHex : String) (txId : String) (tx : RedeemTx)
deriving DecidableEq

/-- `getWithdrawRawTransaction(data, isRefund, hashName)`: fetches the
HTLC address unspents; when their total cannot cover the fee, consults
the optional `checkWithdraw` probe for a prior spend to the caller's
destination (case-insensitively) and otherwise throws; else builds the
transaction (locktime only for refunds, every unspent as an input with
sequence `0xfffffffe`, one output of total minus fee). -/
def getWithdrawRawTransaction (env : Env) (data : WithdrawData)
    (isRefund : Bool) (hashName : String) : Except JsError WithdrawRaw :=
  let destAddress := withdrawDest env data
  let scriptAddress := env.deriveAddress data.scriptValues hashName
  let unspents := env.fetchUnspents scriptAddress
  let feeValue := bnIntegerValue (envTxFee env scriptAddress)
  let totalUnspent := sumSatoshis unspents
  if totalUnspent < feeValue then
    match env.checkWithdraw with
    | some probe =>
      match probe scriptAddress with
      | some hasWithdraw =>
        if jsToLower hasWithdraw.address = jsToLower destAddress then
          .ok (.already hasWithdraw.txid)
        else
          .error ⟨redeemInsufficientMsg totalUnspent feeValue, none⟩
      | none => .error ⟨redeemInsufficientMsg totalUnspent feeValue, none⟩
    | none => .error ⟨redeemInsufficientMsg totalUnspent feeValue, none⟩
  else
    let tx : RedeemTx :=
      { nLockTime := if isRefund then data.scriptValues.lockTime else 0,
        inputs := unspents.map (fun u => (u.txid, u.vout, 0xfffffffe)),
        outputs := [(destAddress, totalUnspent - feeValue)] }
    let serialized := env.serializeTx tx
    .ok (.built serialized.1 serialized.2 tx)

/-- `checkTX(txID)`: the transaction is observable when `fetchTxInfo`
returns a record with truthy `senderAddress` and `txid` fields whose
`txid` equals the queried id case-insensitively. -/
def checkTX (env : Env) (txID : String) : Bool :=
  match env.fetchTxInfo txID with
  | some txInfo =>
    txInfo.senderAddress ≠ "" ∧ txInfo.txid ≠ "" ∧
      jsToLower txInfo.txid = jsToLower txID
  | none => false

/-- The value `withdraw` rejects with: a translated message string, or
the caught error itself. -/
inductive RejectVal where
  | msg (s : String)
  | err (e : JsError)
deriving DecidableEq

/-- The outcome of `withdraw`'s promise. -/
inductive WithdrawOutcome where
  | resolved (txId : String)
  | rejected (v : RejectVal)
deriving DecidableEq

/-- The error translation in `withdraw`'s catch block (BtcSwap.js lines
487–499): gateway `non-final` responses, then the internal
insufficient-funds message (empty-address special case), then the raw
error. -/
def translateError (e : JsError) : RejectVal :=
  if (match e.resText with
      | some text => strContains text "non-final"
      | none => false) then
    .msg "Try it later"
  else if strContains e.message "Total less than fee" then
    if strContains e.message "Total less than fee: 0" then
      .msg "Address is empty"
    else
      .msg "Less than fee"
  else
    .err e

/-- `withdraw(data, isRefund, hashName)`: builds the raw transaction,
short-circuits on the already-withdrawn report, broadcasts, waits the
post-broadcast delay (`waitDelay(10)`, a pure suspension here), and
resolves only when `checkTX` observes the transaction.  The second
component lists the hexes handed to `broadcastTx`. -/
def withdraw (env : Env) (data : WithdrawData) (isRefund : Bool)
    (hashName : String) : WithdrawOutcome × List String :=
  match getWithdrawRawTransaction env data isRefund hashName with
  | .error e => (.rejected (translateError e), [])
  | .ok (.already txId) => (.resolved txId, [])
  | .ok (.built txHex txId _) =>
    match env.broadcastTx txHex with
    | .error e => (.rejected (translateError e), [txHex])
    | .ok _ =>
      if checkTX env txId then
        (.resolved txId, [txHex])
      else
        (.rejected (.msg "TX not found. Try it later. "), [txHex])

/-- `refund(data, hashName)`: the withdraw path with `isRefund = true`
(BtcSwap.js lines 531–533). -/
def refund (env : Env) (data : WithdrawData) (hashName : String) :
    WithdrawOutcome × List String :=
  withdraw env data true hashName

/-! ## Concrete fixtures shared by witnesses and counterexamples -/

/-- A concrete HTLC parameter set. -/
def sv0 : ScriptValues :=
  { secretHash := "c0ffee", ownerPublicKey := "02aa", recipientPublicKey := "03bb",
    lockTime := 1700000000 }

/-- A concrete environment: one confirmed 1 BTC owner UTXO, a 10000 sat
oracle quote, no tx-info, no withdraw probe. -/
def env0 : Env :=
  { fetchUnspents := fun _ => [{ txid := "t1", vout := 0, satoshis := 100000000,
                                 confirmations := 1 }],
    fetchTxInfo := fun _ => none,
    broadcastTx := fun _ => Except.ok (),
    checkWithdraw := none,
    estimateFeeValue := fun _ => ((10000 : ℤ) : ℚ),
    ownerAddress := "owner",
    deriveAddress := fun _ _ => "htlc",
    serializeTx := fun _ => ("rawhex", "rawid") }

/-! ## C1 — script layout of `createScript` -/

/-- C1: for every `ScriptValues` and both supported hash names,
`createScript` emits the redeem script as exactly the ordered
concatenation HASH_OP, push(secretHash), OP_EQUALVERIFY,
push(recipientPublicKey), OP_EQUAL, OP_IF, push(recipientPublicKey),
OP_CHECKSIG, OP_ELSE, push(scriptnum(lockTime)),
OP_CHECKLOCKTIMEVERIFY, OP_DROP, push(ownerPublicKey), OP_CHECKSIG,
OP_ENDIF, with HASH_OP = OP_RIPEMD160 for `ripemd160` and OP_SHA256
for `sha256`. -/
theorem createScript_layout (data : ScriptValues) :
    createScript data "ripemd160" =
      some [ .op OP_RIPEMD160,
             .pushHex data.secretHash,
             .op OP_EQUALVERIFY,
             .pushHex data.recipientPublicKey,
             .op OP_EQUAL,
             .op OP_IF,
             .pushHex data.recipientPublicKey,
             .op OP_CHECKSIG,
             .op OP_ELSE,
             .pushBytes (scriptNumEncode data.lockTime),
             .op OP_CHECKLOCKTIMEVERIFY,
             .op OP_DROP,
             .pushHex data.ownerPublicKey,
             .op OP_CHECKSIG,
             .op OP_ENDIF ] ∧
    createScript data "sha256" =
      some [ .op OP_SHA256,
             .pushHex data.secretHash,
             .op OP_EQUALVERIFY,
             .pushHex data.recipientPublicKey,
             .op OP_EQUAL,
             .op OP_IF,
             .pushHex data.recipientPublicKey,
             .op OP_CHECKSIG,
             .op OP_ELSE,
             .pushBytes (scriptNumEncode data.lockTime),
             .op OP_CHECKLOCKTIMEVERIFY,
             .op OP_DROP,
             .pushHex data.ownerPublicKey,
             .op OP_CHECKSIG,
             .op OP_ENDIF ] :=
  ⟨rfl, rfl⟩


/-- Evaluation helper: `bnIntegerValue` at a rational that is an
integer. -/
theorem bnIntegerValue_eq_of_eq_intCast {x : ℚ} {n : ℤ} (h : x = (n : ℚ)) :
    bnIntegerValue x = n := by rw [h, bnIntegerValue_intCast]

/-! ## C2 — funding failure condition and transaction shape -/

/-- C2: `fundScript` fails with the insufficient-funds error exactly
when the owner UTXO total `T` is below `fundValue + feeValue`;
otherwise the built funding transaction spends every fetched UTXO and
has exactly the outputs (HTLC address, fundValue) then
(owner address, T − fundValue − feeValue), giving the conservation
`T = fundValue + change + feeValue` with nonnegative change and with
`feeValue` equal to the fee oracle's (integer) quote. -/
theorem fundScript_spec (env : Env) (data : FundData) (hashName : String) :
    ((∃ e, fundScript env data hashName = Except.error e) ↔
      sumSatoshis (env.fetchUnspents env.ownerAddress) <
        bnIntegerValue (data.amount * 100000000) +
          bnIntegerValue (envTxFee env env.ownerAddress)) ∧
    (∀ tx, fundScript env data hashName = Except.ok tx →
      tx.inputs = (env.fetchUnspents env.ownerAddress).map (fun u => (u.txid, u.vout)) ∧
      tx.outputs =
        [(env.deriveAddress data.scriptValues hashName,
          bnIntegerValue (data.amount * 100000000)),
         (env.ownerAddress,
          sumSatoshis (env.fetchUnspents env.ownerAddress) -
            bnIntegerValue (data.amount * 100000000) -
            bnIntegerValue (envTxFee env env.ownerAddress))] ∧
      sumSatoshis (env.fetchUnspents env.ownerAddress) =
        bnIntegerValue (data.amount * 100000000) +
          (sumSatoshis (env.fetchUnspents env.ownerAddress) -
            bnIntegerValue (data.amount * 100000000) -
            bnIntegerValue (envTxFee env env.ownerAddress)) +
          bnIntegerValue (envTxFee env env.ownerAddress) ∧
      0 ≤ sumSatoshis (env.fetchUnspents env.ownerAddress) -
            bnIntegerValue (data.amount * 100000000) -
            bnIntegerValue (envTxFee env env.ownerAddress)) ∧
    (∀ q : ℤ, envTxFee env env.ownerAddress = (q : ℚ) →
      bnIntegerValue (envTxFee env env.ownerAddress) = q) := by
  simp only [fundScript]
  refine ⟨?_, ?_, ?_⟩
  · by_cases hc : sumSatoshis (env.fetchUnspents env.ownerAddress) <
        bnIntegerValue (envTxFee env env.ownerAddress) +
          bnIntegerValue (data.amount * 100000000)
    · rw [if_pos hc]
      simp only [Except.error.injEq, exists_eq']
      constructor
      · intro; linarith
      · intro; trivial
    · rw [if_neg hc]
      simp only [reduceCtorEq, exists_false, false_iff, not_lt]
      linarith [not_lt.mp hc]
  · intro tx htx
    by_cases hc : sumSatoshis (env.fetchUnspents env.ownerAddress) <
        bnIntegerValue (envTxFee env env.ownerAddress) +
          bnIntegerValue (data.amount * 100000000)
    · rw [if_pos hc] at htx
      exact Except.noConfusion htx
    · rw [if_neg hc] at htx
      obtain rfl := (Except.ok.inj htx).symm
      refine ⟨rfl, rfl, by ring, by linarith [not_lt.mp hc]⟩
  · intro q hq
    rw [hq, bnIntegerValue_intCast]

/-- Witness for C2: the owner holds one confirmed 1 BTC UTXO, the
amount is 0.1 BTC and the quote is 10000 sat; the build succeeds and
the change output carries 89990000 sat. -/
theorem fundScript_spec_witness :
    (fundScript env0 { scriptValues := sv0, amount := 1/10 } "ripemd160" =
      Except.ok { inputs := [("t1", 0)],
                  outputs := [("htlc", 10000000), ("owner", 89990000)] }) ∧
    sumSatoshis (env0.fetchUnspents env0.ownerAddress) =
      bnIntegerValue ((1/10 : ℚ) * 100000000) +
        (sumSatoshis (env0.fetchUnspents env0.ownerAddress) -
          bnIntegerValue ((1/10 : ℚ) * 100000000) -
          bnIntegerValue (envTxFee env0 env0.ownerAddress)) +
        bnIntegerValue (envTxFee env0 env0.ownerAddress) := by
  have h1 : bnIntegerValue ((1/10 : ℚ) * 100000000) = 10000000 :=
    bnIntegerValue_eq_of_eq_intCast (by norm_num)
  have h2 : bnIntegerValue (envTxFee env0 env0.ownerAddress) = 10000 :=
    bnIntegerValue_eq_of_eq_intCast (by norm_num [envTxFee, getTxFee, env0])
  have hok : fundScript env0 { scriptValues := sv0, amount := 1/10 } "ripemd160" =
      Except.ok { inputs := [("t1", 0)],
                  outputs := [("htlc", 10000000), ("owner", 89990000)] } := by
    simp only [fundScript, h1, h2]
    norm_num [env0, sumSatoshis]
  have hcons := ((fundScript_spec env0 { scriptValues := sv0, amount := 1/10 }
    "ripemd160").2.1 _ hok).2.2.1
  exact ⟨hok, hcons⟩

/-! ## Substring facts about the engine's error messages -/

theorem hasSub_of_prefix [DecidableEq α] (l pat : List α) (h : pat <+: l) :
    hasSub l pat = true := by
  cases l with
  | nil =>
    obtain ⟨t, ht⟩ := h
    obtain ⟨rfl, -⟩ := List.append_eq_nil.mp ht
    rfl
  | cons a l' =>
    unfold hasSub
    rw [List.isPrefixOf_iff_prefix.mpr h, Bool.true_or]

/-- A literal prefix of the first summand is a substring of the
concatenation. -/
theorem strContains_of_prefix (pre rest pat : String)
    (h : pat.data <+: pre.data) : strContains (pre ++ rest) pat = true := by
  unfold strContains
  rw [String.data_append]
  exact hasSub_of_prefix _ _ (h.trans (List.prefix_append _ _))

/-- Every redeem insufficient-funds message contains the translation
pattern `Total less than fee`. -/
theorem redeemInsufficientMsg_contains (t fee : ℤ) :
    strContains (redeemInsufficientMsg t fee) "Total less than fee" = true := by
  unfold redeemInsufficientMsg
  rw [String.append_assoc, String.append_assoc]
  exact strContains_of_prefix _ _ _ (by decide)

/-- The redeem insufficient-funds message with total `0` contains the
empty-address pattern `Total less than fee: 0`. -/
theorem redeemInsufficientMsg_zero_contains :
    ∀ fee : ℤ, strContains (redeemInsufficientMsg 0 fee)
      "Total less than fee: 0" = true := by
  intro fee
  unfold redeemInsufficientMsg
  rw [show ("Total less than fee: " ++ toString (0 : ℤ)) = "Total less than fee: 0"
    from rfl, String.append_assoc]
  exact strContains_of_prefix _ _ _ (by decide)

/-! ## C3 — shape of the built withdraw/refund transaction -/

/-- A concrete redeem request with no explicit destination. -/
def wd0 : WithdrawData := { scriptValues := sv0, secret := "sec", destinationAddress := none }

/-- C3: when the HTLC address's UTXO total covers the fee, the built
transaction's `nLockTime` is `scriptValues.lockTime` for a refund and
`0` otherwise, every UTXO at the HTLC address becomes an input with
sequence `0xFFFFFFFE`, and there is a single output paying total minus
fee to the destination address, which defaults to the local owner
address when unspecified. -/
theorem getWithdrawRaw_build_shape (env : Env) (data : WithdrawData)
    (isRefund : Bool) (hashName : String)
    (hT : bnIntegerValue (envTxFee env (env.deriveAddress data.scriptValues hashName)) ≤
      sumSatoshis (env.fetchUnspents (env.deriveAddress data.scriptValues hashName))) :
    getWithdrawRawTransaction env data isRefund hashName =
      Except.ok (WithdrawRaw.built
        (env.serializeTx
          { nLockTime := if isRefund then data.scriptValues.lockTime else 0,
            inputs := (env.fetchUnspents (env.deriveAddress data.scriptValues hashName)).map
              (fun u => (u.txid, u.vout, 0xfffffffe)),
            outputs := [(withdrawDest env data,
              sumSatoshis (env.fetchUnspents (env.deriveAddress data.scriptValues hashName)) -
                bnIntegerValue (envTxFee env (env.deriveAddress data.scriptValues hashName)))] }).1
        (env.serializeTx
          { nLockTime := if isRefund then data.scriptValues.lockTime else 0,
            inputs := (env.fetchUnspents (env.deriveAddress data.scriptValues hashName)).map
              (fun u => (u.txid, u.vout, 0xfffffffe)),
            outputs := [(withdrawDest env data,
              sumSatoshis (env.fetchUnspents (env.deriveAddress data.scriptValues hashName)) -
                bnIntegerValue (envTxFee env (env.deriveAddress data.scriptValues hashName)))] }).2
        { nLockTime := if isRefund then data.scriptValues.lockTime else 0,
          inputs := (env.fetchUnspents (env.deriveAddress data.scriptValues hashName)).map
            (fun u => (u.txid, u.vout, 0xfffffffe)),
          outputs := [(withdrawDest env data,
            sumSatoshis (env.fetchUnspents (env.deriveAddress data.scriptValues hashName)) -
              bnIntegerValue (envTxFee env (env.deriveAddress data.scriptValues hashName)))] }) ∧
    (data.destinationAddress = none → withdrawDest env data = env.ownerAddress) := by
  constructor
  · simp only [getWithdrawRawTransaction]
    rw [if_neg (not_lt.mpr hT)]
  · intro h
    simp [withdrawDest, h]

/-- Witness for C3 at a concrete refund: one 1 BTC UTXO at the HTLC
address, fee 10000 sat, so the single output pays 99990000 sat to the
defaulted owner address and `nLockTime` is the script locktime. -/
theorem getWithdrawRaw_build_shape_witness :
    getWithdrawRawTransaction env0 wd0 true "ripemd160" =
      Except.ok (WithdrawRaw.built "rawhex" "rawid"
        { nLockTime := 1700000000,
          inputs := [("t1", 0, 4294967294)],
          outputs := [("owner", 99990000)] }) ∧
    withdrawDest env0 wd0 = env0.ownerAddress := by
  have h2 : bnIntegerValue (envTxFee env0 (env0.deriveAddress wd0.scriptValues "ripemd160")) =
      10000 := bnIntegerValue_intCast 10000
  have hT : bnIntegerValue (envTxFee env0 (env0.deriveAddress wd0.scriptValues "ripemd160")) ≤
      sumSatoshis (env0.fetchUnspents (env0.deriveAddress wd0.scriptValues "ripemd160")) := by
    rw [h2]
    norm_num [env0, sumSatoshis]
  have h := getWithdrawRaw_build_shape env0 wd0 true "ripemd160" hT
  refine ⟨?_, h.2 rfl⟩
  rw [h.1, h2]
  norm_num [env0, sumSatoshis, withdrawDest, wd0, sv0]

/-! ## C6 — already-withdrawn path versus insufficient-funds -/

/-- C6: when the HTLC total is below the fee: with a configured probe
reporting a prior spend to the caller's destination (case-insensitive),
the redeem path returns the already-withdrawn report and `withdraw`
resolves with that txid broadcasting nothing; with no probe, or a
reported destination that differs, it fails with the insufficient-funds
error instead. -/
theorem getWithdrawRaw_already_withdrawn (env : Env) (data : WithdrawData)
    (isRefund : Bool) (hashName : String)
    (hT : sumSatoshis (env.fetchUnspents (env.deriveAddress data.scriptValues hashName)) <
      bnIntegerValue (envTxFee env (env.deriveAddress data.scriptValues hashName))) :
    (∀ probe hasWithdraw, env.checkWithdraw = some probe →
      probe (env.deriveAddress data.scriptValues hashName) = some hasWithdraw →
      jsToLower hasWithdraw.address = jsToLower (withdrawDest env data) →
      getWithdrawRawTransaction env data isRefund hashName =
        Except.ok (WithdrawRaw.already hasWithdraw.txid) ∧
      withdraw env data isRefund hashName =
        (WithdrawOutcome.resolved hasWithdraw.txid, [])) ∧
    (env.checkWithdraw = none →
      ∃ e, getWithdrawRawTransaction env data isRefund hashName = Except.error e ∧
        strContains e.message "Total less than fee" = true) ∧
    (∀ probe hasWithdraw, env.checkWithdraw = some probe →
      probe (env.deriveAddress data.scriptValues hashName) = some hasWithdraw →
      jsToLower hasWithdraw.address ≠ jsToLower (withdrawDest env data) →
      ∃ e, getWithdrawRawTransaction env data isRefund hashName = Except.error e ∧
        strContains e.message "Total less than fee" = true) := by
  refine ⟨?_, ?_, ?_⟩
  · intro probe hasWithdraw hcw hpr heq
    have hraw : getWithdrawRawTransaction env data isRefund hashName =
        Except.ok (WithdrawRaw.already hasWithdraw.txid) := by
      simp only [getWithdrawRawTransaction]
      rw [if_pos hT, hcw]
      simp only [hpr]
      rw [if_pos heq]
    exact ⟨hraw, by rw [withdraw, hraw]⟩
  · intro hcw
    refine ⟨⟨redeemInsufficientMsg
      (sumSatoshis (env.fetchUnspents (env.deriveAddress data.scriptValues hashName)))
      (bnIntegerValue (envTxFee env (env.deriveAddress data.scriptValues hashName))), none⟩,
      ?_, redeemInsufficientMsg_contains _ _⟩
    simp only [getWithdrawRawTransaction]
    rw [if_pos hT, hcw]
  · intro probe hasWithdraw hcw hpr hne
    refine ⟨⟨redeemInsufficientMsg
      (sumSatoshis (env.fetchUnspents (env.deriveAddress data.scriptValues hashName)))
      (bnIntegerValue (envTxFee env (env.deriveAddress data.scriptValues hashName))), none⟩,
      ?_, redeemInsufficientMsg_contains _ _⟩
    simp only [getWithdrawRawTransaction]
    rw [if_pos hT, hcw]
    simp only [hpr]
    rw [if_neg hne]

/-- An environment whose HTLC address is fully spent (no unspents) and
whose probe reports a prior spend to `OWNER` (differing from the owner
address only by case). -/
def envSpent : Env :=
  { env0 with
    fetchUnspents := fun _ => [],
    checkWithdraw := some (fun _ => some { address := "OWNER", txid := "prior" }) }

/-- Witness for C6: with an empty HTLC address and a probe reporting a
prior spend to `OWNER`, the redeem path returns the prior txid as
already withdrawn and `withdraw` resolves without broadcasting. -/
theorem getWithdrawRaw_already_withdrawn_witness :
    getWithdrawRawTransaction envSpent wd0 false "ripemd160" =
      Except.ok (WithdrawRaw.already "prior") ∧
    withdraw envSpent wd0 false "ripemd160" =
      (WithdrawOutcome.resolved "prior", []) := by
  have hT : sumSatoshis (envSpent.fetchUnspents
      (envSpent.deriveAddress wd0.scriptValues "ripemd160")) <
      bnIntegerValue (envTxFee envSpent (envSpent.deriveAddress wd0.scriptValues "ripemd160")) := by
    rw [show bnIntegerValue (envTxFee envSpent
      (envSpent.deriveAddress wd0.scriptValues "ripemd160")) = 10000
      from bnIntegerValue_intCast 10000]
    norm_num [envSpent, env0, sumSatoshis]
  have h := (getWithdrawRaw_already_withdrawn envSpent wd0 false "ripemd160" hT).1
    (fun _ => some { address := "OWNER", txid := "prior" })
    { address := "OWNER", txid := "prior" } rfl rfl (by decide)
  exact h

/-! ## C4 — `checkScript` ok condition -/

/-- C4: `checkScript` returns the falsy ok sentinel (`none`, modelling
`undefined`) iff the expected satoshi value is at most the raw unspent
total, the expected locktime is at most the script locktime, the
recipient keys agree, and the expected value is at most the
confidence-filtered total; and in every other case it returns a
diagnostic string rather than throwing. -/
theorem checkScript_ok_iff (env : Env) (data : ScriptValues)
    (expected : Expected) (hashName : String) :
    (checkScript env data expected hashName = none ↔
      (bnIntegerValue (expected.value * 100000000) ≤
        sumSatoshis (env.fetchUnspents (env.deriveAddress data hashName)) ∧
      expected.lockTime ≤ data.lockTime ∧
      expected.recipientPublicKey = data.recipientPublicKey ∧
      bnIntegerValue (expected.value * 100000000) ≤
        sumSatoshis (filterConfidentUnspents env (expected.confidence.getD (19/20))
          (env.fetchUnspents (env.deriveAddress data hashName))))) ∧
    (checkScript env data expected hashName = none ∨
      ∃ s, checkScript env data expected hashName = some s) := by
  constructor
  · simp only [checkScript]
    split_ifs with h1 h2 h3 h4
    · simp only [reduceCtorEq, false_iff, not_and]
      intro hv
      exact absurd hv (not_le.mpr h1)
    · simp only [reduceCtorEq, false_iff, not_and]
      intro _ hl
      exact absurd hl (not_le.mpr h2)
    · simp only [reduceCtorEq, false_iff, not_and]
      intro _ _ hr
      exact absurd hr h3
    · simp only [reduceCtorEq, false_iff, not_and]
      intro _ _ _ hc
      exact absurd hc (not_le.mpr h4)
    · simp only [true_iff]
      exact ⟨not_lt.mp h1, not_lt.mp h2, not_not.mp h3, not_lt.mp h4⟩
  · cases h : checkScript env data expected hashName with
    | none => exact Or.inl rfl
    | some s => exact Or.inr ⟨s, rfl⟩

/-! ## C7 — default fee without an oracle

The constructor stores `options.feeValue || 546` in `this.feeValue`,
but that field is never read by the transaction builders: they call
`getTxFee`, which queries `this.estimateFeeValue`, and the default
estimator is `() => 0`.  So without an oracle the fee actually used is
`0`, not `546`. -/

/-- Counterexample to C7: with no `estimateFeeValue` oracle configured,
the fee `getTxFee` hands to the transaction builders is `0`, not the
constant `546`. -/
theorem defaultFee_counterexample :
    getTxFee (initEstimateFeeValue { feeValue := none, estimateFeeValue := none })
      true "addr" "fast" = 0 ∧
    ¬ getTxFee (initEstimateFeeValue { feeValue := none, estimateFeeValue := none })
      true "addr" "fast" = 546 := by
  constructor
  · rfl
  · intro h
    rw [show getTxFee (initEstimateFeeValue
      { feeValue := none, estimateFeeValue := none }) true "addr" "fast" = 0 from rfl] at h
    norm_num at h

/-- C7 amended: when no `estimateFeeValue` oracle is configured the
constructor does store the 546 satoshi dust constant in the `feeValue`
field, but that field is never consulted by the builders; `getTxFee`
uses the default estimator `() => 0`, so the fee used for built
transactions is `0`. -/
theorem defaultFee_is_zero (o : BtcSwapOptions) (addr speed : String)
    (hfee : o.feeValue = none) (hest : o.estimateFeeValue = none) :
    initFeeValue o = 546 ∧
    getTxFee (initEstimateFeeValue o) true addr speed = 0 ∧
    (∀ env : Env, env.estimateFeeValue = initEstimateFeeValue o →
      bnIntegerValue (envTxFee env addr) = 0) := by
  refine ⟨by rw [initFeeValue, hfee], ?_, ?_⟩
  · rw [initEstimateFeeValue, hest]
    rfl
  · intro env henv
    rw [envTxFee, henv, initEstimateFeeValue, hest]
    exact bnIntegerValue_eq_of_eq_intCast (by norm_num [getTxFee])

/-- Witness for the amended C7. -/
theorem defaultFee_is_zero_witness :
    initFeeValue { feeValue := none, estimateFeeValue := none } = 546 ∧
    getTxFee (initEstimateFeeValue { feeValue := none, estimateFeeValue := none })
      true "owner" "fast" = 0 := by
  have h := defaultFee_is_zero { feeValue := none, estimateFeeValue := none }
    "owner" "fast" rfl rfl
  exact ⟨h.1, h.2.1⟩

/-! ## C9 — decimal-BTC to satoshi conversion

`amount.multipliedBy(1e8).integerValue()` uses BigNumber's default
`ROUND_HALF_UP`, which rounds to the nearest integer (ties away from
zero) — not truncation. -/

/-- An owner with a 100 sat UTXO and a zero fee quote. -/
def envTiny : Env :=
  { env0 with
    fetchUnspents := fun _ => [{ txid := "t1", vout := 0, satoshis := 100,
                                 confirmations := 1 }],
    estimateFeeValue := fun _ => ((0 : ℤ) : ℚ) }

/-- Counterexample to C9: funding 0.000000015 BTC (1.5 sat) produces an
HTLC output of 2 sat, while truncation `⌊amount × 10⁸⌋` gives 1 sat. -/
theorem satoshiConversion_counterexample :
    fundScript envTiny { scriptValues := sv0, amount := 3/200000000 } "ripemd160" =
      Except.ok { inputs := [("t1", 0)], outputs := [("htlc", 2), ("owner", 98)] } ∧
    ⌊(3/200000000 : ℚ) * 100000000⌋ = 1 ∧ (2 : ℤ) ≠ 1 := by
  have hval : bnIntegerValue ((3/200000000 : ℚ) * 100000000) = 2 := by
    rw [show (3/200000000 : ℚ) * 100000000 = 3/2 by norm_num, bnIntegerValue_eq,
      if_pos (by norm_num), show (3/2 : ℚ) + 1/2 = ((2 : ℤ) : ℚ) by norm_num,
      Int.floor_intCast]
  have hfee : bnIntegerValue (envTxFee envTiny envTiny.ownerAddress) = 0 :=
    bnIntegerValue_intCast 0
  refine ⟨?_, ?_, by norm_num⟩
  · simp only [fundScript, hval, hfee]
    norm_num [envTiny, env0, sumSatoshis]
  · rw [show (3/200000000 : ℚ) * 100000000 = 3/2 by norm_num]
    exact Int.floor_eq_iff.mpr ⟨by norm_num, by norm_num⟩

/-- C9 amended: every decimal-BTC amount crossing the public interface
is converted by multiplying by 10⁸ and rounding to the *nearest*
integer with ties away from zero (BigNumber `ROUND_HALF_UP`), in both
`fundScript` and `checkScript`; the result is within half a satoshi of
the exact product and agrees with it exactly on integers. -/
theorem satoshiConversion_rounds_to_nearest (x : ℚ) (hx : 0 ≤ x) :
    ((bnIntegerValue (x * 100000000) : ℚ) - x * 100000000 ≤ 1/2 ∧
     -(1/2 : ℚ) < (bnIntegerValue (x * 100000000) : ℚ) - x * 100000000) ∧
    (∀ n : ℤ, x * 100000000 = (n : ℚ) → bnIntegerValue (x * 100000000) = n) ∧
    (∀ env hashName (sv : ScriptValues) tx,
      fundScript env { scriptValues := sv, amount := x } hashName = Except.ok tx →
      tx.outputs.head? = some (env.deriveAddress sv hashName,
        bnIntegerValue (x * 100000000))) := by
  have hx8 : 0 ≤ x * 100000000 := by positivity
  refine ⟨⟨?_, ?_⟩, ?_, ?_⟩
  · rw [bnIntegerValue_eq, if_pos hx8]
    have h := Int.floor_le (x * 100000000 + 1/2)
    linarith
  · rw [bnIntegerValue_eq, if_pos hx8]
    have h := Int.lt_floor_add_one (x * 100000000 + 1/2)
    linarith
  · intro n hn
    rw [hn, bnIntegerValue_intCast]
  · intro env hashName sv tx htx
    simp only [fundScript] at htx
    split_ifs at htx with hc
    all_goals first
      | exact Except.noConfusion htx
      | (rw [← Except.ok.inj htx]; rfl)

/-- Witness for the amended C9 at `x = 0.1` BTC. -/
theorem satoshiConversion_rounds_to_nearest_witness :
    (0 : ℚ) ≤ 1/10 ∧ bnIntegerValue ((1/10 : ℚ) * 100000000) = 10000000 := by
  have h := (satoshiConversion_rounds_to_nearest (1/10) (by norm_num)).2.1
    10000000 (by norm_num)
  exact ⟨by norm_num, h⟩

/-! ## C10 — refund is withdraw with `isRefund = true` -/

/-- C10: `refund(data, hashName)` is exactly `withdraw(data, true,
hashName)`: same error translation, same already-withdrawn handling,
same post-broadcast check, same broadcast trace. -/
theorem refund_eq_withdraw_true (env : Env) (data : WithdrawData) (hashName : String) :
    refund env data hashName = withdraw env data true hashName := rfl

/-! ## C8 — post-broadcast check and error translations

`withdraw` rejects with the fixed string
`'TX not found. Try it later. '`; the txid is passed as a second
argument to `reject`, which JS discards, so the rejection value does
not carry the txid. -/

/-- An environment whose serializer yields txid `deadbeef` and whose
`fetchTxInfo` never observes the transaction. -/
def envC8 : Env := { env0 with serializeTx := fun _ => ("hx", "deadbeef") }

/-- Counterexample to C8 as stated: the post-broadcast failure rejects
with the fixed message `'TX not found. Try it later. '`, which does not
contain the transaction id `deadbeef` produced by the build — the txid
is the discarded second argument of `reject`. -/
theorem txNotFound_counterexample :
    withdraw envC8 wd0 false "ripemd160" =
      (WithdrawOutcome.rejected (RejectVal.msg "TX not found. Try it later. "), ["hx"]) ∧
    strContains "TX not found. Try it later. " "deadbeef" = false := by
  have hfee : bnIntegerValue (envTxFee envC8
      (envC8.deriveAddress wd0.scriptValues "ripemd160")) = 10000 :=
    bnIntegerValue_intCast 10000
  have hraw : getWithdrawRawTransaction envC8 wd0 false "ripemd160" =
      Except.ok (WithdrawRaw.built "hx" "deadbeef"
        { nLockTime := 0, inputs := [("t1", 0, 4294967294)],
          outputs := [("owner", 99990000)] }) := by
    simp only [getWithdrawRawTransaction, hfee]
    norm_num [envC8, env0, sumSatoshis, withdrawDest, wd0]
  refine ⟨?_, by decide⟩
  simp only [withdraw, hraw]
  norm_num [envC8, env0, checkTX]

/-- C8 amended: after broadcasting, `withdraw` confirms observability
through the gateway's `fetchTxInfo` lookup (`checkTX`) and on failure
rejects with the fixed message `'TX not found. Try it later. '` (the
txid is handed to `reject` as a discarded extra argument, so the
rejection does not carry it); a gateway `non-final` error is translated
to `'Try it later'`; an internal insufficient-funds with total `T = 0`
is translated to `'Address is empty'`. -/
theorem withdraw_postcheck_and_translations :
    (∀ env data isRefund hashName txHex txId tx,
      getWithdrawRawTransaction env data isRefund hashName =
        Except.ok (WithdrawRaw.built txHex txId tx) →
      env.broadcastTx txHex = Except.ok () →
      checkTX env txId = false →
      withdraw env data isRefund hashName =
        (WithdrawOutcome.rejected (RejectVal.msg "TX not found. Try it later. "), [txHex])) ∧
    (∀ env data isRefund hashName txHex txId tx,
      getWithdrawRawTransaction env data isRefund hashName =
        Except.ok (WithdrawRaw.built txHex txId tx) →
      env.broadcastTx txHex = Except.ok () →
      checkTX env txId = true →
      withdraw env data isRefund hashName =
        (WithdrawOutcome.resolved txId, [txHex])) ∧
    (∀ env data isRefund hashName txHex txId tx e text,
      getWithdrawRawTransaction env data isRefund hashName =
        Except.ok (WithdrawRaw.built txHex txId tx) →
      env.broadcastTx txHex = Except.error e →
      e.resText = some text →
      strContains text "non-final" = true →
      withdraw env data isRefund hashName =
        (WithdrawOutcome.rejected (RejectVal.msg "Try it later"), [txHex])) ∧
    (∀ env data isRefund hashName,
      sumSatoshis (env.fetchUnspents (env.deriveAddress data.scriptValues hashName)) = 0 →
      0 < bnIntegerValue (envTxFee env (env.deriveAddress data.scriptValues hashName)) →
      env.checkWithdraw = none →
      withdraw env data isRefund hashName =
        (WithdrawOutcome.rejected (RejectVal.msg "Address is empty"), [])) := by
  refine ⟨?_, ?_, ?_, ?_⟩
  · intro env data isRefund hashName txHex txId tx hraw hbr hchk
    simp only [withdraw, hraw, hbr, hchk]
    rfl
  · intro env data isRefund hashName txHex txId tx hraw hbr hchk
    simp only [withdraw, hraw, hbr, hchk]
    rfl
  · intro env data isRefund hashName txHex txId tx e text hraw hbr hres hnf
    simp only [withdraw, hraw, hbr]
    simp only [translateError, hres, hnf]
    rfl
  · intro env data isRefund hashName hT0 hfee hcw
    have hraw : getWithdrawRawTransaction env data isRefund hashName =
        Except.error ⟨redeemInsufficientMsg 0
          (bnIntegerValue (envTxFee env (env.deriveAddress data.scriptValues hashName))),
          none⟩ := by
      simp only [getWithdrawRawTransaction, hT0]
      rw [if_pos hfee, hcw]
    simp only [withdraw, hraw]
    simp only [translateError, redeemInsufficientMsg_contains,
      redeemInsufficientMsg_zero_contains]
    rfl

/-- An environment whose HTLC address holds nothing and with no
withdraw probe. -/
def envEmpty : Env := { env0 with fetchUnspents := fun _ => [] }

/-- Witness for the amended C8: an empty HTLC address with a positive
fee quote rejects with `'Address is empty'` and broadcasts nothing. -/
theorem withdraw_postcheck_and_translations_witness :
    withdraw envEmpty wd0 false "ripemd160" =
      (WithdrawOutcome.rejected (RejectVal.msg "Address is empty"), []) := by
  have hfee : (0 : ℤ) < bnIntegerValue (envTxFee envEmpty
      (envEmpty.deriveAddress wd0.scriptValues "ripemd160")) := by
    rw [show bnIntegerValue (envTxFee envEmpty
      (envEmpty.deriveAddress wd0.scriptValues "ripemd160")) = 10000
      from bnIntegerValue_intCast 10000]
    norm_num
  exact withdraw_postcheck_and_translations.2.2.2 envEmpty wd0 false "ripemd160"
    rfl hfee rfl

/-! ## C5 — the confidence filter -/

/-- The claim's description of a UTXO's confidence: `1` when confirmed;
otherwise `min 1 (fees / f*)` when TxInfo yields a fees value, with
`f*` the current fast fee for the sender's address; otherwise the
confirmations-based fallback `0`. -/
def claimConfidence (env : Env) (u : Unspent) : ℚ :=
  if u.confirmations > 0 then 1
  else
    match env.fetchTxInfo u.txid with
    | some info =>
      match info.fees with
      | some fees => min 1 (fees / envTxFee env info.senderAddress)
      | none => 0
    | none => 0

/-- Pointwise: a UTXO passes the engine's confidence test iff it passes
the claim's, provided fast fees are positive and reported fees
nonnegative. -/
theorem fetchConfidence_mem_iff (env : Env) (c : ℚ) (u : Unspent)
    (hfast : ∀ a, 0 < envTxFee env a)
    (hfees : ∀ t info fees, env.fetchTxInfo t = some info →
      info.fees = some fees → 0 ≤ fees) :
    (c ≤ fetchConfidence env c u) ↔ (c ≤ claimConfidence env u) := by
  simp only [fetchConfidence, claimConfidence, confirmationsToConfidence, feesToConfidence]
  by_cases hconf : u.confirmations > 0
  · simp only [if_pos hconf]
    by_cases hc : c ≤ (1 : ℚ)
    · rw [if_pos hc]
    · rw [if_neg hc]
      cases hti : env.fetchTxInfo u.txid with
      | none => exact Iff.rfl
      | some info =>
        dsimp only
        cases hf : info.fees with
        | none => exact Iff.rfl
        | some f =>
          dsimp only
          by_cases hf0 : f = 0
          · rw [if_pos hf0]
          · rw [if_neg hf0]
            refine iff_of_false ?_ hc
            intro h
            by_cases hlt : f < envTxFee env info.senderAddress
            · rw [if_pos hlt] at h
              exact hc (h.trans ((div_lt_one (hfast _)).mpr hlt).le)
            · rw [if_neg hlt] at h
              exact hc h
  · simp only [if_neg hconf]
    by_cases hc : c ≤ (0 : ℚ)
    · rw [if_pos hc]
      cases hti : env.fetchTxInfo u.txid with
      | none => exact Iff.rfl
      | some info =>
        dsimp only
        cases hf : info.fees with
        | none => exact Iff.rfl
        | some f =>
          dsimp only
          have hfnn : 0 ≤ f := hfees _ _ _ hti hf
          exact iff_of_true hc (hc.trans
            (le_min (by norm_num) (div_nonneg hfnn (hfast _).le)))
    · rw [if_neg hc]
      cases hti : env.fetchTxInfo u.txid with
      | none => exact Iff.rfl
      | some info =>
        dsimp only
        cases hf : info.fees with
        | none => exact Iff.rfl
        | some f =>
          dsimp only
          have hfnn : 0 ≤ f := hfees _ _ _ hti hf
          by_cases hf0 : f = 0
          · rw [if_pos hf0, hf0, zero_div, min_eq_right (by norm_num : (0:ℚ) ≤ 1)]
          · rw [if_neg hf0]
            by_cases hlt : f < envTxFee env info.senderAddress
            · rw [if_pos hlt,
                min_eq_right ((div_lt_one (hfast _)).mpr hlt).le]
            · rw [if_neg hlt,
                min_eq_left ((one_le_div (hfast _)).mpr (not_lt.mp hlt))]

/-- C5: for every unspent list and threshold `c`,
`filterConfidentUnspents` returns exactly the subset whose claimed
confidence (1 for confirmed UTXOs, else `min 1 (fees / f*)` when
TxInfo yields fees, else the confirmations fallback 0) reaches `c` —
assuming positive fast fees and nonnegative reported fees. -/
theorem filterConfidentUnspents_spec (env : Env) (unspents : List Unspent) (c : ℚ)
    (hfast : ∀ a, 0 < envTxFee env a)
    (hfees : ∀ t info fees, env.fetchTxInfo t = some info →
      info.fees = some fees → 0 ≤ fees) :
    filterConfidentUnspents env c unspents =
      unspents.filter (fun u => decide (c ≤ claimConfidence env u)) := by
  unfold filterConfidentUnspents
  exact List.filter_congr (fun u _ =>
    decide_eq_decide.mpr (fetchConfidence_mem_iff env c u hfast hfees))

/-- A gateway that reports every mempool transaction as paying 50 sat
against a fast fee of 100 sat. -/
def envConf : Env :=
  { env0 with
    fetchTxInfo := fun t => some { txid := t, senderAddress := "sender",
                                   fees := some ((50 : ℤ) : ℚ) },
    estimateFeeValue := fun _ => ((100 : ℤ) : ℚ) }

/-- A confirmed UTXO and an unconfirmed one. -/
def uConfirmed : Unspent := { txid := "u1", vout := 0, satoshis := 5, confirmations := 3 }

def uMempool : Unspent := { txid := "u2", vout := 1, satoshis := 7, confirmations := 0 }

/-- Witness for C5: at threshold 0.95 the confirmed UTXO (confidence 1)
is kept and the unconfirmed one (confidence `min 1 (50/100) = 1/2`) is
dropped. -/
theorem filterConfidentUnspents_spec_witness :
    filterConfidentUnspents envConf (19/20) [uConfirmed, uMempool] = [uConfirmed] := by
  have hfast : ∀ a, (0 : ℚ) < envTxFee envConf a := by
    intro a
    rw [show envTxFee envConf a = ((100 : ℤ) : ℚ) from rfl]
    norm_num
  have hfees : ∀ t info fees, envConf.fetchTxInfo t = some info →
      info.fees = some fees → 0 ≤ fees := by
    intro t info fees h1 h2
    simp only [envConf] at h1
    cases Option.some.inj h1
    simp only at h2
    cases Option.some.inj h2
    norm_num
  rw [filterConfidentUnspents_spec envConf [uConfirmed, uMempool] (19/20) hfast hfees]
  have h1 : claimConfidence envConf uConfirmed = 1 := rfl
  have h2 : claimConfidence envConf uMempool = 1/2 := by
    rw [show claimConfidence envConf uMempool
      = min 1 (((50 : ℤ) : ℚ) / envTxFee envConf "sender") from rfl]
    rw [show envTxFee envConf "sender" = ((100 : ℤ) : ℚ) from rfl]
    rw [min_eq_right (by norm_num)]
    norm_num
  simp only [List.filter, h1, h2]
  norm_num
